import Mathlib

/-!
Verification of the distributed tempo/pattern synchronization subsystem of the
esp32_metronome_solenoid firmware, shallowly embedded from `src/WirelessSync.cpp`.
Machine integers are modelled as `Nat` with explicit wraparound where the C code
can overflow; the C `float` fields (tempo, drift-correction factor) are modelled
exactly over `ℚ`.
-/

namespace MetronomeSync

/-- Lexicographic comparison of two byte arrays of the same length, as
C `memcmp(a, b, n) < 0` does on `uint8_t` arrays. -/
def memLt : List Nat → List Nat → Bool
  | [], [] => false
  | _ :: _, [] => false
  | [], _ :: _ => false
  | a :: as, b :: bs =>
    if a < b then true else if b < a then false else memLt as bs

/-- Numeric value of a byte array read as one big-endian integer; this is the
"numeric" reading of a 6-byte device id. -/
def beVal : List Nat → Nat
  | [] => 0
  | a :: as => a * 256 ^ as.length + beVal as

/-- MAX_BEATS from `config.h`. -/
def maxBeats : Nat := 16

/-- Payload of a CLOCK frame (`isLeader` is the raw byte, `clockTick` a uint32). -/
structure ClockData where
  isLeader : Nat
  clockTick : Nat
  deriving DecidableEq

/-- Payload of a BEAT frame; `bpm` is a C float, modelled over `ℚ`. -/
structure BeatData where
  bpm : ℚ
  beatPosition : Nat
  multiplierIdx : Nat
  deriving DecidableEq

/-- Payload of a BAR frame. -/
structure BarData where
  globalBar : Nat
  channelCount : Nat
  patternLength : Nat
  activePattern : Nat
  channelMask : Nat
  deriving DecidableEq

/-- Payload of a PATTERN frame. -/
structure PatternData where
  channelId : Nat
  barLength : Nat
  pattern : Nat
  currentBeat : Nat
  enabled : Nat
  deriving DecidableEq

/-- Payload of a CONTROL frame. -/
structure ControlData where
  command : Nat
  param1 : Nat
  param2 : Nat
  param3 : Nat
  value : Nat
  deriving DecidableEq

/-- Tagged message body, one variant per `MessageType` of the wire protocol. -/
inductive MsgBody where
  | clock : ClockData → MsgBody
  | beat : BeatData → MsgBody
  | bar : BarData → MsgBody
  | pattern : PatternData → MsgBody
  | control : ControlData → MsgBody
  deriving DecidableEq

/-- A `SyncMessage` wire frame: common header plus tagged payload. -/
structure SyncMessage where
  sequenceNum : Nat
  priority : Nat
  deviceID : List Nat
  timestamp : Nat
  body : MsgBody
  deriving DecidableEq

/-- Per-channel rhythm state (fields used by `WirelessSync.cpp`). -/
structure MetronomeChannel where
  barLength : Nat
  pattern : Nat
  enabled : Bool
  currentBeat : Nat
  deriving DecidableEq

/-- Modelled from the spec: `MetronomeChannel.h` is not among the sources; §4.5
says `setBarLength(n)` clamps n to [1, MAX_BEATS]. -/
def MetronomeChannel.setBarLength (c : MetronomeChannel) (n : Nat) : MetronomeChannel :=
  { c with barLength := max 1 (min n maxBeats) }

/-- Modelled from the spec: `MetronomeChannel.h` is not among the sources; §4.5
says `setPattern(bits)` truncates to the current barLength's bit width. -/
def MetronomeChannel.setPattern (c : MetronomeChannel) (bits : Nat) : MetronomeChannel :=
  { c with pattern := bits % 2 ^ c.barLength }

/-- Modelled from the spec: `MetronomeChannel.h` is not among the sources; the
call site in `WirelessSync.cpp` uses `toggleEnabled` to flip the enabled flag. -/
def MetronomeChannel.toggleEnabled (c : MetronomeChannel) : MetronomeChannel :=
  { c with enabled := !c.enabled }

/-- Complete per-device state of the `WirelessSync` object (its fields), plus
the uClock tempo it reads and writes through `getTempo`/`setTempo`. -/
structure WirelessSyncState where
  deviceID : List Nat
  priority : Nat
  isLeader : Bool
  currentLeaderID : List Nat
  lastLeaderHeartbeat : Nat
  latencyBuffer : List Nat
  latencyBufferIndex : Nat
  averageLatency : Nat
  driftCorrection : ℚ
  lastReceivedTick : Nat
  predictedNextTick : Nat
  leaderNegotiationActive : Bool
  highestPrioritySeen : Nat
  highestPriorityDevice : List Nat
  tempo : ℚ
  channels : List MetronomeChannel
  deriving DecidableEq

/-- Truncation to a uint32. -/
def u32 (x : Nat) : Nat := x % 2 ^ 32

/-- Truncation to a uint64. -/
def u64 (x : Nat) : Nat := x % 2 ^ 64

/-- Wraparound subtraction on uint64 values. -/
def u64sub (a b : Nat) : Nat := (u64 a + (2 ^ 64 - u64 b)) % 2 ^ 64

/-- Reinterpretation of the low 32 bits of a `Nat` as a signed `int32_t`. -/
def toInt32 (x : Nat) : Int :=
  if x % 2 ^ 32 < 2 ^ 31 then (x % 2 ^ 32 : Nat) else (x % 2 ^ 32 : Nat) - 2 ^ 32

/-- Environment values read by the receive handler: the `micros()` result at
the `updateLatency` call, the `micros()` result at the `predictNextTick` call,
the `millis()` result, and `uClock.bpmToMicroSeconds(uClock.getTempo()) / 24`. -/
structure RecvEnv where
  nowMicrosLatency : Nat
  nowMicrosPredict : Nat
  nowMillis : Nat
  tickInterval : Nat
  deriving DecidableEq

/-- Modelled from the spec: `WirelessSync.h` is not among the sources, so the
exact `sizeof(SyncMessage)` is unknown; every theorem below only compares a
datagram length against this constant, and none depends on its value. -/
def syncMessageSize : Nat := 32

/-- Modelled from the spec: `WirelessSync.h` is not among the sources, so the
numeric value of the `CMD_RESET` command enum is unknown; no theorem below
depends on its value. -/
def cmdReset : Nat := 0

/-- In-place update of one list element, as writing through `getChannel(i)`. -/
def listModify {α : Type} : List α → Nat → (α → α) → List α
  | [], _, _ => []
  | a :: as, 0, f => f a :: as
  | a :: as, i + 1, f => a :: listModify as i f

/-- WirelessSync::updateLatency: store `micros() - sendTime` (a uint32) in the
8-slot rolling buffer, advance the index mod 8, and recompute the mean. -/
def updateLatency (s : WirelessSyncState) (nowMicros : Nat) (sendTime : Nat) :
    WirelessSyncState :=
  let currentLatency := u32 (u64sub nowMicros sendTime)
  let buf := s.latencyBuffer.set s.latencyBufferIndex currentLatency
  { s with
    latencyBuffer := buf
    latencyBufferIndex := (s.latencyBufferIndex + 1) % 8
    averageLatency := u32 buf.sum / 8 }

/-- WirelessSync::predictNextTick: on the first frame only record the tick;
afterwards compute `drift = micros() - (timestamp + tickInterval)` (int32_t),
and when `|drift| > 100` nudge the correction factor by ±0.0001 and clamp it
to [0.9, 1.1] via Arduino `constrain`. -/
def predictNextTick (s : WirelessSyncState) (currentTick : Nat) (timestamp : Nat)
    (tickInterval : Nat) (nowMicros : Nat) : WirelessSyncState :=
  if s.lastReceivedTick = 0 then
    { s with lastReceivedTick := currentTick }
  else
    let expectedTime := u64 (timestamp + tickInterval)
    let drift : Int := toInt32 (u64sub nowMicros expectedTime)
    let dc :=
      if 100 < drift.natAbs then
        let dc' := s.driftCorrection + (if 0 < drift then (1 : ℚ) / 10000 else -((1 : ℚ) / 10000))
        if dc' < 9 / 10 then (9 : ℚ) / 10 else if 11 / 10 < dc' then (11 : ℚ) / 10 else dc'
      else s.driftCorrection
    { s with
      predictedNextTick := u32 (currentTick + 1)
      driftCorrection := dc
      lastReceivedTick := currentTick }

/-- WirelessSync::isHigherPriority: strictly higher priority wins; a tie is
broken by `memcmp(deviceID, _highestPriorityDevice, 6) < 0`. -/
def isHigherPriority (s : WirelessSyncState) (devID : List Nat) (priority : Nat) : Bool :=
  if s.highestPrioritySeen < priority then true
  else if priority = s.highestPrioritySeen then memLt devID s.highestPriorityDevice
  else false

/-- WirelessSync::processLeaderSelection: ignored outside an active
negotiation; otherwise adopt the frame's (priority, deviceID) as the new
highest-seen tracker exactly when `isHigherPriority` holds. -/
def processLeaderSelection (s : WirelessSyncState) (m : SyncMessage) : WirelessSyncState :=
  if s.leaderNegotiationActive = false then s
  else if isHigherPriority s m.deviceID m.priority then
    { s with highestPrioritySeen := m.priority, highestPriorityDevice := m.deviceID }
  else s

/-- Body of WirelessSync::onDataReceived after the size and self-echo checks:
update latency tracking on every frame, then dispatch on the message type. -/
def processMessage (s : WirelessSyncState) (m : SyncMessage) (env : RecvEnv) :
    WirelessSyncState :=
  let s1 := updateLatency s env.nowMicrosLatency m.timestamp
  match m.body with
  | .clock c =>
    if c.isLeader ≠ 0 then
      let s2 := { s1 with currentLeaderID := m.deviceID, lastLeaderHeartbeat := env.nowMillis }
      let s3 := predictNextTick s2 c.clockTick m.timestamp env.tickInterval env.nowMicrosPredict
      { s3 with tempo := s3.tempo * s3.driftCorrection }
    else s1
  | .beat b =>
    if s1.isLeader = false then
      if 1 / 2 < |s1.tempo - b.bpm| then { s1 with tempo := b.bpm } else s1
    else s1
  | .bar _ => s1
  | .pattern p =>
    if s1.isLeader = false then
      if p.channelId < s1.channels.length then
        { s1 with channels := listModify s1.channels p.channelId (fun c =>
            let c1 := c.setPattern p.pattern
            let c2 := c1.setBarLength p.barLength
            if (if c2.enabled then 1 else 0) ≠ p.enabled then c2.toggleEnabled else c2) }
      else s1
    else s1
  | .control c =>
    if c.command = cmdReset ∧ c.param1 = 1 then processLeaderSelection s1 m else s1

/-- WirelessSync::onDataReceived: reject datagrams whose byte length is not
`sizeof(SyncMessage)`, drop self-originated frames, then process. -/
def onDataReceived (s : WirelessSyncState) (len : Nat) (m : SyncMessage) (env : RecvEnv) :
    WirelessSyncState :=
  if len ≠ syncMessageSize then s
  else if m.deviceID = s.deviceID then s
  else processMessage s m env

/-- WirelessSync::onSync24 as a send predicate: whether a CLOCK frame is sent
for `tick` (the code calls `sendClock(tick)` exactly when this is true). -/
def onSync24Sends (s : WirelessSyncState) (tick : Nat) : Bool :=
  if s.isLeader then
    if s.tempo ≤ 120 then true
    else if s.tempo ≤ 240 ∧ tick % 2 = 0 then true
    else if tick % 4 = 0 then true
    else false
  else false

/-- Statement of the spec's throttle sentence exactly as written, for the
comparison with the code: every tick below 120 BPM, every second tick between
120 and 240 BPM, every fourth tick above 240 BPM. -/
def specThrottleSends (tempo : ℚ) (tick : Nat) : Bool :=
  if tempo < 120 then true
  else if tempo ≤ 240 then decide (tick % 2 = 0)
  else decide (tick % 4 = 0)

/-- WirelessSync::gcd, the Euclidean loop on uint16 values. -/
def gcdLoop (a b : Nat) : Nat :=
  if h : b = 0 then a else gcdLoop b (a % b)
termination_by b
decreasing_by exact Nat.mod_lt _ (Nat.pos_of_ne_zero h)

/-- WirelessSync::lcm: `(a * b) / gcd(a, b)` computed in `int` and truncated
back to uint16 on return. -/
def lcmCode (a b : Nat) : Nat := (a * b / gcdLoop a b) % 65536

/-- The patternLength computation of WirelessSync::sendBar: fold `lcm` over the
barLength of every enabled channel, starting from 1. -/
def barPatternLength (channels : List MetronomeChannel) : Nat :=
  channels.foldl (fun acc c => if c.enabled then lcmCode acc c.barLength else acc) 1

/-- WirelessSync::sendPattern: no frame at all when the channel id is out of
range, otherwise the PATTERN payload built from the addressed channel. -/
def sendPattern (s : WirelessSyncState) (channelId : Nat) : Option PatternData :=
  match s.channels[channelId]? with
  | none => none
  | some c => some
      { channelId := channelId
        barLength := c.barLength
        pattern := c.pattern
        currentBeat := c.currentBeat
        enabled := if c.enabled then 1 else 0 }

/-- WirelessSync::startLeaderNegotiation (entry): mark the negotiation active
and seed the highest-seen tracker with the device's own identity. -/
def startNegotiation (s : WirelessSyncState) : WirelessSyncState :=
  { s with
    leaderNegotiationActive := true
    highestPrioritySeen := s.priority
    highestPriorityDevice := s.deviceID }

/-- WirelessSync::startLeaderNegotiation (exit, after the settle window):
become leader exactly when the tracked device is still the device itself. -/
def finishNegotiation (s : WirelessSyncState) : WirelessSyncState :=
  { s with
    isLeader := decide (s.highestPriorityDevice = s.deviceID)
    leaderNegotiationActive := false }

/-- One whole negotiation round of a device: start, receive an arbitrary inbox
of datagrams during the settle window through the normal receive handler, then
commit. Each inbox entry carries the datagram length and environment. -/
def negotiationRound (s : WirelessSyncState)
    (inbox : List (Nat × SyncMessage × RecvEnv)) : WirelessSyncState :=
  finishNegotiation
    (inbox.foldl (fun st x => onDataReceived st x.1 x.2.1 x.2.2) (startNegotiation s))

/-- Modelled from the spec: `MetronomeChannel.h` is not among the sources; §4.5
describes `generateEuclidean(k)` as iterating slot 0..barLength-1 with an
accumulator initialized to 0, adding k each slot, and when the accumulator
reaches barLength activating the slot and subtracting barLength.
`euclidAux n k i` is the (pattern bitmask, accumulator) pair after the first
`i` slots of that loop. -/
def euclidAux (n k : Nat) : Nat → Nat × Nat
  | 0 => (0, 0)
  | i + 1 =>
    let pa := euclidAux n k i
    let acc := pa.2 + k
    if n ≤ acc then (pa.1 ||| 2 ^ i, acc - n) else (pa.1, acc)

/-- Modelled from the spec: `generateEuclidean(k)` over barLength n runs the
bucket loop over all n slots and then forces bit 0 active (§4.5). -/
def generateEuclidean (n k : Nat) : Nat := (euclidAux n k n).1 ||| 1

/-- Number of active bits of a pattern bitmask among slots `0 .. m-1`. -/
def bitCount (p m : Nat) : Nat :=
  ((List.range m).filter (fun j => p.testBit j)).length

/-- Synthetic CLOCK stream whose frames always arrive 150 microseconds later
than the sender timestamp plus the expected tick interval (constant +150μs
bias): the n-th frame carries timestamp n and tick n+2, and is handed to
`predictNextTick` at local time n + tickInterval + 150. -/
def biasPosStream (s : WirelessSyncState) (ti : Nat) : Nat → WirelessSyncState
  | 0 => s
  | n + 1 => predictNextTick (biasPosStream s ti n) (n + 2) n ti (n + ti + 150)

/-- Synthetic CLOCK stream with a constant −150μs bias: the n-th frame carries
timestamp n + 150 and arrives at local time n + tickInterval. -/
def biasNegStream (s : WirelessSyncState) (ti : Nat) : Nat → WirelessSyncState
  | 0 => s
  | n + 1 => predictNextTick (biasNegStream s ti n) (n + 2) (n + 150) ti (n + ti)

/-- A concrete device state used by the closed-form examples below. -/
def baseState : WirelessSyncState :=
  { deviceID := [1, 1, 1, 1, 1, 1]
    priority := 5
    isLeader := false
    currentLeaderID := [0, 0, 0, 0, 0, 0]
    lastLeaderHeartbeat := 0
    latencyBuffer := [0, 0, 0, 0, 0, 0, 0, 0]
    latencyBufferIndex := 0
    averageLatency := 0
    driftCorrection := 1
    lastReceivedTick := 0
    predictedNextTick := 0
    leaderNegotiationActive := false
    highestPrioritySeen := 0
    highestPriorityDevice := [0, 0, 0, 0, 0, 0]
    tempo := 100
    channels := [] }

/-- A concrete CLOCK frame from a foreign leader device. -/
def exClockMsg (ts tick : Nat) : SyncMessage :=
  { sequenceNum := 0
    priority := 5
    deviceID := [2, 2, 2, 2, 2, 2]
    timestamp := ts
    body := MsgBody.clock { isLeader := 1, clockTick := tick } }

/-- A concrete BEAT frame from a foreign device. -/
def exBeatMsg : SyncMessage :=
  { sequenceNum := 0
    priority := 5
    deviceID := [2, 2, 2, 2, 2, 2]
    timestamp := 200
    body := MsgBody.beat { bpm := 100, beatPosition := 0, multiplierIdx := 0 } }

/-- A concrete PATTERN frame from a foreign device addressing channel 3. -/
def exPatternMsg : SyncMessage :=
  { sequenceNum := 0
    priority := 5
    deviceID := [2, 2, 2, 2, 2, 2]
    timestamp := 200
    body := MsgBody.pattern
      { channelId := 3, barLength := 4, pattern := 5, currentBeat := 0, enabled := 1 } }

/-- A concrete negotiation CONTROL frame carrying a given header priority. -/
def exNegMsg (p : Nat) (dev : List Nat) : SyncMessage :=
  { sequenceNum := 0
    priority := p
    deviceID := dev
    timestamp := 0
    body := MsgBody.control
      { command := cmdReset, param1 := 1, param2 := 0, param3 := 0, value := p } }

/-- A concrete receive environment. -/
def exEnv : RecvEnv :=
  { nowMicrosLatency := 1000, nowMicrosPredict := 0, nowMillis := 5, tickInterval := 1000 }

/-- A concrete device state in the middle of an active leader negotiation. -/
def negState : WirelessSyncState :=
  { baseState with
    leaderNegotiationActive := true
    highestPrioritySeen := 5
    highestPriorityDevice := [1, 1, 1, 1, 1, 1] }

/-- A concrete device state that has already received its first CLOCK frame. -/
def tickedState : WirelessSyncState := { baseState with lastReceivedTick := 1 }

theorem digit_lt_digit {u w vu vw P : Nat} (h1 : u < w) (h2 : vu < P) :
    u * P + vu < w * P + vw := by
  have h3 : (u + 1) * P = u * P + P := by ring
  have h4 : (u + 1) * P ≤ w * P := Nat.mul_le_mul_right P h1
  omega

theorem beVal_lt (l : List Nat) (h : ∀ x ∈ l, x < 256) :
    beVal l < 256 ^ l.length := by
  induction l with
  | nil => simp [beVal]
  | cons a as ih =>
    have ha : a < 256 := h a (by simp)
    have has : beVal as < 256 ^ as.length := ih (fun x hx => h x (by simp [hx]))
    have h1 : beVal (a :: as) = a * 256 ^ as.length + beVal as := rfl
    have h2 : 256 ^ (a :: as).length = 256 * 256 ^ as.length := by
      rw [List.length_cons, pow_succ, Nat.mul_comm]
    have h3 : a * 256 ^ as.length + beVal as < 256 * 256 ^ as.length + 0 :=
      digit_lt_digit ha has
    omega

/-- Byte-wise lexicographic order on equal-length byte arrays coincides with
numeric (big-endian) order: `memcmp < 0` means the numeric value is smaller. -/
theorem memLt_iff_beVal (a b : List Nat) (hlen : a.length = b.length)
    (ha : ∀ x ∈ a, x < 256) (hb : ∀ x ∈ b, x < 256) :
    memLt a b = true ↔ beVal a < beVal b := by
  induction a generalizing b with
  | nil =>
    cases b with
    | nil => simp [memLt, beVal]
    | cons y ys => simp at hlen
  | cons x xs ih =>
    cases b with
    | nil => simp at hlen
    | cons y ys =>
      have hxy : xs.length = ys.length := by simpa using hlen
      have hx : x < 256 := ha x (by simp)
      have hy : y < 256 := hb y (by simp)
      have hxs : ∀ z ∈ xs, z < 256 := fun z hz => ha z (by simp [hz])
      have hys : ∀ z ∈ ys, z < 256 := fun z hz => hb z (by simp [hz])
      have hvx : beVal xs < 256 ^ xs.length := beVal_lt xs hxs
      have hvy : beVal ys < 256 ^ ys.length := beVal_lt ys hys
      rw [hxy] at hvx
      by_cases h1 : x < y
      · have hlt : x * 256 ^ ys.length + beVal xs < y * 256 ^ ys.length + beVal ys :=
          digit_lt_digit h1 hvx
        simp [memLt, beVal, h1, hxy, hlt]
      · by_cases h2 : y < x
        · have hlt : y * 256 ^ ys.length + beVal ys < x * 256 ^ ys.length + beVal xs :=
            digit_lt_digit h2 hvy
          simp only [memLt, beVal, if_neg h1, if_pos h2]
          constructor
          · intro hc; exact absurd hc (by simp)
          · intro hc; rw [hxy] at hc; omega
        · have hxe : x = y := by omega
          subst hxe
          have hrec := ih ys hxy hxs hys
          simp [memLt, beVal, h1, h2, hrec, hxy]

theorem memLt_eq_false_of_le (a b : List Nat) (hlen : a.length = b.length)
    (ha : ∀ x ∈ a, x < 256) (hb : ∀ x ∈ b, x < 256) (h : beVal b ≤ beVal a) :
    memLt a b = false := by
  cases hm : memLt a b with
  | false => rfl
  | true => exact absurd ((memLt_iff_beVal a b hlen ha hb).mp hm) (by omega)

@[simp] theorem updateLatency_deviceID (s : WirelessSyncState) (n t : Nat) :
    (updateLatency s n t).deviceID = s.deviceID := rfl

@[simp] theorem updateLatency_priority (s : WirelessSyncState) (n t : Nat) :
    (updateLatency s n t).priority = s.priority := rfl

@[simp] theorem updateLatency_isLeader (s : WirelessSyncState) (n t : Nat) :
    (updateLatency s n t).isLeader = s.isLeader := rfl

@[simp] theorem updateLatency_currentLeaderID (s : WirelessSyncState) (n t : Nat) :
    (updateLatency s n t).currentLeaderID = s.currentLeaderID := rfl

@[simp] theorem updateLatency_lastLeaderHeartbeat (s : WirelessSyncState) (n t : Nat) :
    (updateLatency s n t).lastLeaderHeartbeat = s.lastLeaderHeartbeat := rfl

@[simp] theorem updateLatency_driftCorrection (s : WirelessSyncState) (n t : Nat) :
    (updateLatency s n t).driftCorrection = s.driftCorrection := rfl

@[simp] theorem updateLatency_lastReceivedTick (s : WirelessSyncState) (n t : Nat) :
    (updateLatency s n t).lastReceivedTick = s.lastReceivedTick := rfl

@[simp] theorem updateLatency_predictedNextTick (s : WirelessSyncState) (n t : Nat) :
    (updateLatency s n t).predictedNextTick = s.predictedNextTick := rfl

@[simp] theorem updateLatency_leaderNegotiationActive (s : WirelessSyncState) (n t : Nat) :
    (updateLatency s n t).leaderNegotiationActive = s.leaderNegotiationActive := rfl

@[simp] theorem updateLatency_highestPrioritySeen (s : WirelessSyncState) (n t : Nat) :
    (updateLatency s n t).highestPrioritySeen = s.highestPrioritySeen := rfl

@[simp] theorem updateLatency_highestPriorityDevice (s : WirelessSyncState) (n t : Nat) :
    (updateLatency s n t).highestPriorityDevice = s.highestPriorityDevice := rfl

@[simp] theorem updateLatency_tempo (s : WirelessSyncState) (n t : Nat) :
    (updateLatency s n t).tempo = s.tempo := rfl

@[simp] theorem updateLatency_channels (s : WirelessSyncState) (n t : Nat) :
    (updateLatency s n t).channels = s.channels := rfl

@[simp] theorem predictNextTick_deviceID (s : WirelessSyncState) (tick ts ti now : Nat) :
    (predictNextTick s tick ts ti now).deviceID = s.deviceID := by
  unfold predictNextTick; split <;> rfl

@[simp] theorem predictNextTick_priority (s : WirelessSyncState) (tick ts ti now : Nat) :
    (predictNextTick s tick ts ti now).priority = s.priority := by
  unfold predictNextTick; split <;> rfl

@[simp] theorem predictNextTick_isLeader (s : WirelessSyncState) (tick ts ti now : Nat) :
    (predictNextTick s tick ts ti now).isLeader = s.isLeader := by
  unfold predictNextTick; split <;> rfl

@[simp] theorem predictNextTick_currentLeaderID (s : WirelessSyncState) (tick ts ti now : Nat) :
    (predictNextTick s tick ts ti now).currentLeaderID = s.currentLeaderID := by
  unfold predictNextTick; split <;> rfl

@[simp] theorem predictNextTick_lastLeaderHeartbeat (s : WirelessSyncState) (tick ts ti now : Nat) :
    (predictNextTick s tick ts ti now).lastLeaderHeartbeat = s.lastLeaderHeartbeat := by
  unfold predictNextTick; split <;> rfl

@[simp] theorem predictNextTick_latencyBuffer (s : WirelessSyncState) (tick ts ti now : Nat) :
    (predictNextTick s tick ts ti now).latencyBuffer = s.latencyBuffer := by
  unfold predictNextTick; split <;> rfl

@[simp] theorem predictNextTick_latencyBufferIndex (s : WirelessSyncState) (tick ts ti now : Nat) :
    (predictNextTick s tick ts ti now).latencyBufferIndex = s.latencyBufferIndex := by
  unfold predictNextTick; split <;> rfl

@[simp] theorem predictNextTick_averageLatency (s : WirelessSyncState) (tick ts ti now : Nat) :
    (predictNextTick s tick ts ti now).averageLatency = s.averageLatency := by
  unfold predictNextTick; split <;> rfl

@[simp] theorem predictNextTick_leaderNegotiationActive (s : WirelessSyncState)
    (tick ts ti now : Nat) :
    (predictNextTick s tick ts ti now).leaderNegotiationActive = s.leaderNegotiationActive := by
  unfold predictNextTick; split <;> rfl

@[simp] theorem predictNextTick_highestPrioritySeen (s : WirelessSyncState)
    (tick ts ti now : Nat) :
    (predictNextTick s tick ts ti now).highestPrioritySeen = s.highestPrioritySeen := by
  unfold predictNextTick; split <;> rfl

@[simp] theorem predictNextTick_highestPriorityDevice (s : WirelessSyncState)
    (tick ts ti now : Nat) :
    (predictNextTick s tick ts ti now).highestPriorityDevice = s.highestPriorityDevice := by
  unfold predictNextTick; split <;> rfl

@[simp] theorem predictNextTick_tempo (s : WirelessSyncState) (tick ts ti now : Nat) :
    (predictNextTick s tick ts ti now).tempo = s.tempo := by
  unfold predictNextTick; split <;> rfl

@[simp] theorem predictNextTick_channels (s : WirelessSyncState) (tick ts ti now : Nat) :
    (predictNextTick s tick ts ti now).channels = s.channels := by
  unfold predictNextTick; split <;> rfl

@[simp] theorem predictNextTick_lastReceivedTick (s : WirelessSyncState) (tick ts ti now : Nat) :
    (predictNextTick s tick ts ti now).lastReceivedTick = tick := by
  unfold predictNextTick; split <;> rfl

@[simp] theorem processLeaderSelection_deviceID (s : WirelessSyncState) (m : SyncMessage) :
    (processLeaderSelection s m).deviceID = s.deviceID := by
  unfold processLeaderSelection; split; rfl; split <;> rfl

@[simp] theorem processLeaderSelection_priority (s : WirelessSyncState) (m : SyncMessage) :
    (processLeaderSelection s m).priority = s.priority := by
  unfold processLeaderSelection; split; rfl; split <;> rfl

@[simp] theorem processLeaderSelection_isLeader (s : WirelessSyncState) (m : SyncMessage) :
    (processLeaderSelection s m).isLeader = s.isLeader := by
  unfold processLeaderSelection; split; rfl; split <;> rfl

@[simp] theorem processLeaderSelection_currentLeaderID (s : WirelessSyncState) (m : SyncMessage) :
    (processLeaderSelection s m).currentLeaderID = s.currentLeaderID := by
  unfold processLeaderSelection; split; rfl; split <;> rfl

@[simp] theorem processLeaderSelection_lastLeaderHeartbeat (s : WirelessSyncState)
    (m : SyncMessage) :
    (processLeaderSelection s m).lastLeaderHeartbeat = s.lastLeaderHeartbeat := by
  unfold processLeaderSelection; split; rfl; split <;> rfl

@[simp] theorem processLeaderSelection_latencyBuffer (s : WirelessSyncState) (m : SyncMessage) :
    (processLeaderSelection s m).latencyBuffer = s.latencyBuffer := by
  unfold processLeaderSelection; split; rfl; split <;> rfl

@[simp] theorem processLeaderSelection_latencyBufferIndex (s : WirelessSyncState)
    (m : SyncMessage) :
    (processLeaderSelection s m).latencyBufferIndex = s.latencyBufferIndex := by
  unfold processLeaderSelection; split; rfl; split <;> rfl

@[simp] theorem processLeaderSelection_averageLatency (s : WirelessSyncState) (m : SyncMessage) :
    (processLeaderSelection s m).averageLatency = s.averageLatency := by
  unfold processLeaderSelection; split; rfl; split <;> rfl

@[simp] theorem processLeaderSelection_driftCorrection (s : WirelessSyncState) (m : SyncMessage) :
    (processLeaderSelection s m).driftCorrection = s.driftCorrection := by
  unfold processLeaderSelection; split; rfl; split <;> rfl

@[simp] theorem processLeaderSelection_lastReceivedTick (s : WirelessSyncState) (m : SyncMessage) :
    (processLeaderSelection s m).lastReceivedTick = s.lastReceivedTick := by
  unfold processLeaderSelection; split; rfl; split <;> rfl

@[simp] theorem processLeaderSelection_predictedNextTick (s : WirelessSyncState)
    (m : SyncMessage) :
    (processLeaderSelection s m).predictedNextTick = s.predictedNextTick := by
  unfold processLeaderSelection; split; rfl; split <;> rfl

@[simp] theorem processLeaderSelection_leaderNegotiationActive (s : WirelessSyncState)
    (m : SyncMessage) :
    (processLeaderSelection s m).leaderNegotiationActive = s.leaderNegotiationActive := by
  unfold processLeaderSelection; split; rfl; split <;> rfl

@[simp] theorem processLeaderSelection_tempo (s : WirelessSyncState) (m : SyncMessage) :
    (processLeaderSelection s m).tempo = s.tempo := by
  unfold processLeaderSelection; split; rfl; split <;> rfl

@[simp] theorem processLeaderSelection_channels (s : WirelessSyncState) (m : SyncMessage) :
    (processLeaderSelection s m).channels = s.channels := by
  unfold processLeaderSelection; split; rfl; split <;> rfl

/-- Claim C8: a received datagram whose byte length differs from the fixed
frame size is discarded before any further processing — the whole device
state is left unchanged and no error is propagated (the handler returns). -/
theorem claim_C8 (s : WirelessSyncState) (len : Nat) (m : SyncMessage)
    (env : RecvEnv) (h : len ≠ syncMessageSize) :
    onDataReceived s len m env = s := by
  unfold onDataReceived
  exact if_pos h

theorem claim_C8_witness :
    (31 : Nat) ≠ syncMessageSize ∧ onDataReceived baseState 31 exBeatMsg exEnv = baseState :=
  ⟨by decide, claim_C8 baseState 31 exBeatMsg exEnv (by decide)⟩

/-- Claim C10: a PATTERN frame whose channelId is not below the channel count
leaves every channel's barLength, pattern and enabled flag unchanged (the
whole channel list is untouched), and `sendPattern` called with such a
channelId sends no frame at all. -/
theorem claim_C10 :
    (∀ (s : WirelessSyncState) (len : Nat) (m : SyncMessage) (env : RecvEnv)
       (p : PatternData), m.body = MsgBody.pattern p →
       s.channels.length ≤ p.channelId →
       (onDataReceived s len m env).channels = s.channels) ∧
    (∀ (s : WirelessSyncState) (i : Nat), s.channels.length ≤ i →
       sendPattern s i = none) := by
  constructor
  · intro s len m env p hb hc
    obtain ⟨sq, pr, dev, ts, body⟩ := m
    cases hb
    unfold onDataReceived processMessage
    split
    · rfl
    split
    · rfl
    dsimp only
    have hguard : ¬ p.channelId < (updateLatency s env.nowMicrosLatency ts).channels.length := by
      rw [updateLatency_channels]; omega
    split <;> simp [hguard]
  · intro s i h
    unfold sendPattern
    rw [List.getElem?_eq_none h]

theorem claim_C10_witness :
    exPatternMsg.body = MsgBody.pattern ⟨3, 4, 5, 0, 1⟩ ∧
    baseState.channels.length ≤ 3 ∧
    (onDataReceived baseState 32 exPatternMsg exEnv).channels = baseState.channels ∧
    sendPattern baseState 3 = none :=
  ⟨rfl, by decide,
   claim_C10.1 baseState 32 exPatternMsg exEnv ⟨3, 4, 5, 0, 1⟩ rfl (by decide),
   claim_C10.2 baseState 3 (by decide)⟩

/-- Claim C4 is false on the code: the CLOCK branch executes
`setTempo(getTempo() * driftCorrection)` on every leader CLOCK frame, so the
corrections compound. After three frames (the first only primes
lastReceivedTick, the next two each carry +150μs drift), the tempo is
100 × 1.0001 × 1.0002 = 100.030002, while the claim predicts
localTempo × currentFactor = 100 × 1.0002 = 100.02. -/
theorem claim_C4_counterexample :
    (onDataReceived
      (onDataReceived
        (onDataReceived baseState 32 (exClockMsg 1000 1)
          { nowMicrosLatency := 1000, nowMicrosPredict := 0, nowMillis := 5,
            tickInterval := 1000 })
        32 (exClockMsg 2000 2)
        { nowMicrosLatency := 2000, nowMicrosPredict := 3150, nowMillis := 6,
          tickInterval := 1000 })
      32 (exClockMsg 3000 3)
      { nowMicrosLatency := 3000, nowMicrosPredict := 4150, nowMillis := 7,
        tickInterval := 1000 }).tempo ≠
    baseState.tempo *
      (onDataReceived
        (onDataReceived
          (onDataReceived baseState 32 (exClockMsg 1000 1)
            { nowMicrosLatency := 1000, nowMicrosPredict := 0, nowMillis := 5,
              tickInterval := 1000 })
          32 (exClockMsg 2000 2)
          { nowMicrosLatency := 2000, nowMicrosPredict := 3150, nowMillis := 6,
            tickInterval := 1000 })
        32 (exClockMsg 3000 3)
        { nowMicrosLatency := 3000, nowMicrosPredict := 4150, nowMillis := 7,
          tickInterval := 1000 }).driftCorrection := by
  norm_num [onDataReceived, processMessage, updateLatency, predictNextTick,
    u64sub, u64, u32, toInt32, baseState, exClockMsg, syncMessageSize]

/-- Claim C4 (amended): on every accepted CLOCK frame whose isLeader flag is
set, the effective tempo is multiplied by the then-current (just updated)
driftCorrectionFactor — `tempo' = tempo × factor'` — so over successive
frames the corrections compound into a product rather than a single
multiplication of the uncorrected local tempo. -/
theorem claim_C4 (s : WirelessSyncState) (len : Nat) (m : SyncMessage) (env : RecvEnv)
    (c : ClockData) (hlen : len = syncMessageSize) (hself : m.deviceID ≠ s.deviceID)
    (hb : m.body = MsgBody.clock c) (hl : c.isLeader ≠ 0) :
    (onDataReceived s len m env).tempo
      = s.tempo * (onDataReceived s len m env).driftCorrection := by
  obtain ⟨sq, pr, dev, ts, body⟩ := m
  cases hb
  unfold onDataReceived processMessage
  rw [if_neg (by omega), if_neg hself]
  dsimp only
  rw [if_pos hl]
  simp

/-- Claim C7 is false on the code: `updateLatency` runs on every accepted
frame before the type dispatch, so a BEAT frame from another device already
mutates the DriftModel's latency average (here from 0 to (1000−200)/8 = 100). -/
theorem claim_C7_counterexample :
    (onDataReceived baseState 32 exBeatMsg exEnv).averageLatency ≠
      baseState.averageLatency := by
  norm_num [onDataReceived, processMessage, updateLatency, baseState, exBeatMsg,
    exEnv, u64sub, u64, u32, syncMessageSize]

/-- Claim C7 (amended): the latency buffer, buffer index and averageLatency
are updated on every accepted frame of any type, leader-flagged CLOCK frames
included (updateLatency runs before the dispatch), while
driftCorrectionFactor, lastReceivedTick and predictedNextTick are mutated
only by CLOCK frames whose isLeader flag is set (from any sender, not only
the currently recognized leader). -/
theorem claim_C7 :
    (∀ (s : WirelessSyncState) (len : Nat) (m : SyncMessage) (env : RecvEnv),
       len = syncMessageSize → m.deviceID ≠ s.deviceID →
       (onDataReceived s len m env).latencyBuffer
         = (updateLatency s env.nowMicrosLatency m.timestamp).latencyBuffer ∧
       (onDataReceived s len m env).latencyBufferIndex
         = (updateLatency s env.nowMicrosLatency m.timestamp).latencyBufferIndex ∧
       (onDataReceived s len m env).averageLatency
         = (updateLatency s env.nowMicrosLatency m.timestamp).averageLatency) ∧
    (∀ (s : WirelessSyncState) (len : Nat) (m : SyncMessage) (env : RecvEnv),
       (∀ c : ClockData, m.body = MsgBody.clock c → c.isLeader = 0) →
       (onDataReceived s len m env).driftCorrection = s.driftCorrection ∧
       (onDataReceived s len m env).lastReceivedTick = s.lastReceivedTick ∧
       (onDataReceived s len m env).predictedNextTick = s.predictedNextTick) := by
  constructor
  · intro s len m env hlen hself
    obtain ⟨sq, pr, dev, ts, body⟩ := m
    unfold onDataReceived
    rw [if_neg (by omega), if_neg hself]
    cases body with
    | clock c =>
      unfold processMessage
      dsimp only
      split
      · exact ⟨by simp, by simp, by simp⟩
      · exact ⟨rfl, rfl, rfl⟩
    | beat b =>
      unfold processMessage
      dsimp only
      split
      · split <;> exact ⟨rfl, rfl, rfl⟩
      · exact ⟨rfl, rfl, rfl⟩
    | bar b => exact ⟨rfl, rfl, rfl⟩
    | pattern p =>
      unfold processMessage
      dsimp only
      split
      · split <;> exact ⟨rfl, rfl, rfl⟩
      · exact ⟨rfl, rfl, rfl⟩
    | control c =>
      unfold processMessage
      dsimp only
      split
      · exact ⟨by simp, by simp, by simp⟩
      · exact ⟨rfl, rfl, rfl⟩
  · intro s len m env hnc
    obtain ⟨sq, pr, dev, ts, body⟩ := m
    unfold onDataReceived
    split
    · exact ⟨rfl, rfl, rfl⟩
    split
    · exact ⟨rfl, rfl, rfl⟩
    cases body with
    | clock c =>
      have hc := hnc c rfl
      unfold processMessage
      dsimp only
      rw [if_neg (by simp [hc])]
      exact ⟨rfl, rfl, rfl⟩
    | beat b =>
      unfold processMessage
      dsimp only
      split
      · split <;> exact ⟨rfl, rfl, rfl⟩
      · exact ⟨rfl, rfl, rfl⟩
    | bar b => exact ⟨rfl, rfl, rfl⟩
    | pattern p =>
      unfold processMessage
      dsimp only
      split
      · split <;> exact ⟨rfl, rfl, rfl⟩
      · exact ⟨rfl, rfl, rfl⟩
    | control c =>
      unfold processMessage
      dsimp only
      split
      · exact ⟨by simp, by simp, by simp⟩
      · exact ⟨rfl, rfl, rfl⟩

theorem claim_C7_witness :
    ((32 : Nat) = syncMessageSize ∧
     (exClockMsg 1000 1).deviceID ≠ baseState.deviceID ∧
     ((onDataReceived baseState 32 (exClockMsg 1000 1) exEnv).latencyBuffer
        = (updateLatency baseState exEnv.nowMicrosLatency
            (exClockMsg 1000 1).timestamp).latencyBuffer ∧
      (onDataReceived baseState 32 (exClockMsg 1000 1) exEnv).latencyBufferIndex
        = (updateLatency baseState exEnv.nowMicrosLatency
            (exClockMsg 1000 1).timestamp).latencyBufferIndex ∧
      (onDataReceived baseState 32 (exClockMsg 1000 1) exEnv).averageLatency
        = (updateLatency baseState exEnv.nowMicrosLatency
            (exClockMsg 1000 1).timestamp).averageLatency)) ∧
    ((onDataReceived baseState 32 exBeatMsg exEnv).driftCorrection
        = baseState.driftCorrection ∧
     (onDataReceived baseState 32 exBeatMsg exEnv).lastReceivedTick
        = baseState.lastReceivedTick ∧
     (onDataReceived baseState 32 exBeatMsg exEnv).predictedNextTick
        = baseState.predictedNextTick) :=
  ⟨⟨by decide, by decide,
    claim_C7.1 baseState 32 (exClockMsg 1000 1) exEnv (by decide) (by decide)⟩,
   claim_C7.2 baseState 32 exBeatMsg exEnv (fun c hc => by simp [exBeatMsg] at hc)⟩

/-- Claim C9: an accepted CLOCK frame whose isLeader flag is set updates
currentLeaderID, lastLeaderHeartbeat and the local tempo with no guard on the
local role (also when the device itself is Leader), whereas BEAT and PATTERN
frames leave tempo, channels and leader bookkeeping unchanged whenever the
local device is Leader. -/
theorem claim_C9 :
    (∀ (s : WirelessSyncState) (len : Nat) (m : SyncMessage) (env : RecvEnv) (c : ClockData),
       len = syncMessageSize → m.deviceID ≠ s.deviceID → m.body = MsgBody.clock c →
       c.isLeader ≠ 0 →
       (onDataReceived s len m env).currentLeaderID = m.deviceID ∧
       (onDataReceived s len m env).lastLeaderHeartbeat = env.nowMillis ∧
       (onDataReceived s len m env).tempo
         = s.tempo * (onDataReceived s len m env).driftCorrection) ∧
    (∀ (s : WirelessSyncState) (len : Nat) (m : SyncMessage) (env : RecvEnv) (b : BeatData),
       m.body = MsgBody.beat b → s.isLeader = true →
       (onDataReceived s len m env).tempo = s.tempo ∧
       (onDataReceived s len m env).channels = s.channels ∧
       (onDataReceived s len m env).currentLeaderID = s.currentLeaderID ∧
       (onDataReceived s len m env).lastLeaderHeartbeat = s.lastLeaderHeartbeat) ∧
    (∀ (s : WirelessSyncState) (len : Nat) (m : SyncMessage) (env : RecvEnv) (p : PatternData),
       m.body = MsgBody.pattern p → s.isLeader = true →
       (onDataReceived s len m env).tempo = s.tempo ∧
       (onDataReceived s len m env).channels = s.channels ∧
       (onDataReceived s len m env).currentLeaderID = s.currentLeaderID ∧
       (onDataReceived s len m env).lastLeaderHeartbeat = s.lastLeaderHeartbeat) := by
  refine ⟨?_, ?_, ?_⟩
  · intro s len m env c hlen hself hb hl
    obtain ⟨sq, pr, dev, ts, body⟩ := m
    cases hb
    unfold onDataReceived processMessage
    rw [if_neg (by omega), if_neg hself]
    dsimp only
    rw [if_pos hl]
    exact ⟨by simp, by simp, by simp⟩
  · intro s len m env b hb hld
    obtain ⟨sq, pr, dev, ts, body⟩ := m
    cases hb
    unfold onDataReceived processMessage
    split
    · exact ⟨rfl, rfl, rfl, rfl⟩
    split
    · exact ⟨rfl, rfl, rfl, rfl⟩
    dsimp only
    rw [if_neg (by simp [hld])]
    exact ⟨rfl, rfl, rfl, rfl⟩
  · intro s len m env p hb hld
    obtain ⟨sq, pr, dev, ts, body⟩ := m
    cases hb
    unfold onDataReceived processMessage
    split
    · exact ⟨rfl, rfl, rfl, rfl⟩
    split
    · exact ⟨rfl, rfl, rfl, rfl⟩
    dsimp only
    rw [if_neg (by simp [hld])]
    exact ⟨rfl, rfl, rfl, rfl⟩

theorem claim_C9_witness :
    ((32 : Nat) = syncMessageSize ∧
     (exClockMsg 1000 1).deviceID ≠ { baseState with isLeader := true }.deviceID ∧
     (exClockMsg 1000 1).body = MsgBody.clock ⟨1, 1⟩ ∧ (1 : Nat) ≠ 0 ∧
     (onDataReceived { baseState with isLeader := true } 32 (exClockMsg 1000 1) exEnv).currentLeaderID
        = (exClockMsg 1000 1).deviceID ∧
     (onDataReceived { baseState with isLeader := true } 32 (exClockMsg 1000 1) exEnv).lastLeaderHeartbeat
        = exEnv.nowMillis ∧
     (onDataReceived { baseState with isLeader := true } 32 (exClockMsg 1000 1) exEnv).tempo
        = { baseState with isLeader := true }.tempo *
            (onDataReceived { baseState with isLeader := true } 32 (exClockMsg 1000 1) exEnv).driftCorrection) ∧
    (exBeatMsg.body = MsgBody.beat ⟨100, 0, 0⟩ ∧
     { baseState with isLeader := true }.isLeader = true ∧
     (onDataReceived { baseState with isLeader := true } 32 exBeatMsg exEnv).tempo
        = { baseState with isLeader := true }.tempo) ∧
    (exPatternMsg.body = MsgBody.pattern ⟨3, 4, 5, 0, 1⟩ ∧
     (onDataReceived { baseState with isLeader := true } 32 exPatternMsg exEnv).channels
        = { baseState with isLeader := true }.channels) := by
  refine ⟨⟨by decide, by decide, rfl, by decide, ?_⟩, ⟨rfl, rfl, ?_⟩, ⟨rfl, ?_⟩⟩
  · exact (claim_C9.1 { baseState with isLeader := true } 32 (exClockMsg 1000 1) exEnv ⟨1, 1⟩
      (by decide) (by decide) rfl (by decide))
  · exact (claim_C9.2.1 { baseState with isLeader := true } 32 exBeatMsg exEnv ⟨100, 0, 0⟩
      rfl rfl).1
  · exact (claim_C9.2.2 { baseState with isLeader := true } 32 exPatternMsg exEnv ⟨3, 4, 5, 0, 1⟩
      rfl rfl).2.1

theorem claim_C4_witness :
    (32 : Nat) = syncMessageSize ∧
    (exClockMsg 1000 1).deviceID ≠ baseState.deviceID ∧
    (exClockMsg 1000 1).body = MsgBody.clock ⟨1, 1⟩ ∧
    (1 : Nat) ≠ 0 ∧
    (onDataReceived baseState 32 (exClockMsg 1000 1) exEnv).tempo
      = baseState.tempo * (onDataReceived baseState 32 (exClockMsg 1000 1) exEnv).driftCorrection :=
  ⟨by decide, by decide, rfl, by decide,
   claim_C4 baseState 32 (exClockMsg 1000 1) exEnv ⟨1, 1⟩ (by decide) (by decide) rfl (by decide)⟩

/-- Claim C2 is false on the code at the boundary tempo 120: `onSync24` sends
whenever `tempo <= 120`, so at exactly 120 BPM a CLOCK frame goes out on every
tick, including odd ones (here tick 1), while the spec's rule reserves
every-tick sending to tempos strictly below 120 and sends only on even ticks
between 120 and 240 BPM. -/
theorem claim_C2_counterexample :
    onSync24Sends { baseState with isLeader := true, tempo := 120 } 1 = true ∧
    specThrottleSends 120 1 = false := by
  constructor
  · norm_num [onSync24Sends, baseState]
  · norm_num [specThrottleSends]

/-- Claim C2 (amended): the tempo zones are those of the code — a CLOCK frame
on every tick when tempo ≤ 120, exactly on even ticks when 120 < tempo ≤ 240,
and exactly on ticks divisible by 4 when tempo > 240. -/
theorem claim_C2 (s : WirelessSyncState) (t : Nat) (h : s.isLeader = true) :
    onSync24Sends s t =
      if s.tempo ≤ 120 then true
      else if s.tempo ≤ 240 then decide (t % 2 = 0)
      else decide (t % 4 = 0) := by
  unfold onSync24Sends
  rw [h]
  by_cases h1 : s.tempo ≤ 120
  · simp [h1]
  · by_cases h2 : s.tempo ≤ 240
    · by_cases h3 : t % 2 = 0
      · simp [h1, h2, h3]
      · have h4 : ¬ t % 4 = 0 := by omega
        simp [h1, h2, h3, h4]
    · by_cases h4 : t % 4 = 0
      · simp [h1, h2, h4]
      · simp [h1, h2, h4]

theorem claim_C2_witness :
    { baseState with isLeader := true, tempo := 120 }.isLeader = true ∧
    onSync24Sends { baseState with isLeader := true, tempo := 120 } 1 =
      (if { baseState with isLeader := true, tempo := 120 }.tempo ≤ 120 then true
       else if { baseState with isLeader := true, tempo := 120 }.tempo ≤ 240 then
         decide (1 % 2 = 0)
       else decide (1 % 4 = 0)) :=
  ⟨rfl, claim_C2 { baseState with isLeader := true, tempo := 120 } 1 rfl⟩

theorem gcdLoop_eq_gcd (a b : Nat) : gcdLoop a b = Nat.gcd a b := by
  induction b using Nat.strong_induction_on generalizing a with
  | _ b ih =>
    unfold gcdLoop
    split
    · rename_i hb
      rw [hb, Nat.gcd_zero_right]
    · rename_i hb
      rw [ih (a % b) (Nat.mod_lt a (Nat.pos_of_ne_zero hb)) b]
      rw [Nat.gcd_comm b (a % b), ← Nat.gcd_rec b a, Nat.gcd_comm b a]

theorem lcmCode_eq (a b : Nat) : lcmCode a b = Nat.lcm a b % 65536 := by
  unfold lcmCode
  rw [gcdLoop_eq_gcd]
  rfl

theorem foldl_lcm_dvd (l : List Nat) (a : Nat) : a ∣ l.foldl Nat.lcm a := by
  induction l generalizing a with
  | nil => simp
  | cons b bs ih => exact dvd_trans (Nat.dvd_lcm_left a b) (ih (Nat.lcm a b))

theorem foldl_lcm_pos (l : List Nat) :
    ∀ a, 0 < a → (∀ b ∈ l, 0 < b) → 0 < l.foldl Nat.lcm a := by
  induction l with
  | nil => intro a ha _; simpa using ha
  | cons b bs ih =>
    intro a ha hl
    exact ih (Nat.lcm a b) (Nat.lcm_pos ha (hl b (by simp))) (fun x hx => hl x (by simp [hx]))

theorem barFold_eq (l : List MetronomeChannel) :
    ∀ a, 0 < a → (∀ c ∈ l, 0 < c.barLength) →
    ((l.filter (fun c => c.enabled)).map (fun c => c.barLength)).foldl Nat.lcm a < 65536 →
    l.foldl (fun acc c => if c.enabled then lcmCode acc c.barLength else acc) a
      = ((l.filter (fun c => c.enabled)).map (fun c => c.barLength)).foldl Nat.lcm a := by
  induction l with
  | nil => intro a _ _ _; rfl
  | cons c cs ih =>
    intro a ha hl hov
    by_cases he : c.enabled
    · have hbl : 0 < c.barLength := hl c (by simp)
      have hfil : (c :: cs).filter (fun c => c.enabled)
          = c :: cs.filter (fun c => c.enabled) := by
        simp [List.filter_cons, he]
      rw [hfil] at hov
      rw [hfil]
      simp only [List.map_cons, List.foldl_cons] at hov ⊢
      have hmem : ∀ x ∈ (cs.filter (fun c => c.enabled)).map (fun c => c.barLength), 0 < x := by
        intro x hx
        obtain ⟨ch, hch, hval⟩ := List.mem_map.mp hx
        have := (List.mem_filter.mp hch).1
        rw [← hval]
        exact hl ch (by simp [this])
      have hpos : 0 < ((cs.filter (fun c => c.enabled)).map
          (fun c => c.barLength)).foldl Nat.lcm (Nat.lcm a c.barLength) :=
        foldl_lcm_pos _ _ (Nat.lcm_pos ha hbl) hmem
      have hlt : Nat.lcm a c.barLength < 65536 :=
        lt_of_le_of_lt (Nat.le_of_dvd hpos (foldl_lcm_dvd _ _)) hov
      have hstep : lcmCode a c.barLength = Nat.lcm a c.barLength := by
        rw [lcmCode_eq]
        exact Nat.mod_eq_of_lt hlt
      simp only [List.foldl_cons, if_pos he, hstep]
      exact ih (Nat.lcm a c.barLength) (Nat.lcm_pos ha hbl)
        (fun x hx => hl x (by simp [hx])) hov
    · have hfil : (c :: cs).filter (fun c => c.enabled)
          = cs.filter (fun c => c.enabled) := by
        simp [List.filter_cons, he]
      rw [hfil] at hov
      rw [hfil]
      simp only [List.foldl_cons, if_neg he]
      exact ih a ha (fun x hx => hl x (by simp [hx])) hov

/-- Claim C5: the patternLength computed by `sendBar` is the fold of lcm over
the barLength of exactly the enabled channels starting from 1 (so 1 when no
channel is enabled), provided the mathematical LCM fits in the uint16 the
code computes it in; enabled lengths {4, 6} give 12, and {1} alone gives 1. -/
theorem claim_C5 :
    (∀ channels : List MetronomeChannel,
       (∀ c ∈ channels, 1 ≤ c.barLength) →
       ((channels.filter (fun c => c.enabled)).map (fun c => c.barLength)).foldl Nat.lcm 1
         < 65536 →
       barPatternLength channels
         = ((channels.filter (fun c => c.enabled)).map (fun c => c.barLength)).foldl
             Nat.lcm 1) ∧
    (∀ channels : List MetronomeChannel,
       (∀ c ∈ channels, c.enabled = false) → barPatternLength channels = 1) ∧
    barPatternLength [⟨4, 0, true, 0⟩, ⟨6, 0, true, 0⟩] = 12 ∧
    barPatternLength [⟨1, 0, true, 0⟩] = 1 := by
  refine ⟨?_, ?_, ?_, ?_⟩
  · intro channels h1 h2
    exact barFold_eq channels 1 Nat.one_pos h1 h2
  · intro channels h
    unfold barPatternLength
    induction channels with
    | nil => rfl
    | cons c cs ih =>
      have hc : c.enabled = false := h c (by simp)
      simp only [List.foldl_cons, hc, if_neg (by simp : ¬ (false = true))]
      exact ih (fun x hx => h x (by simp [hx]))
  · norm_num [barPatternLength, lcmCode_eq]
  · norm_num [barPatternLength, lcmCode_eq]

theorem claim_C5_witness :
    (∀ c ∈ [(⟨4, 0, true, 0⟩ : MetronomeChannel), ⟨6, 0, true, 0⟩], 1 ≤ c.barLength) ∧
    (([(⟨4, 0, true, 0⟩ : MetronomeChannel),
        ⟨6, 0, true, 0⟩].filter (fun c => c.enabled)).map (fun c => c.barLength)).foldl
        Nat.lcm 1 < 65536 ∧
    barPatternLength [⟨4, 0, true, 0⟩, ⟨6, 0, true, 0⟩]
      = (([(⟨4, 0, true, 0⟩ : MetronomeChannel),
           ⟨6, 0, true, 0⟩].filter (fun c => c.enabled)).map (fun c => c.barLength)).foldl
          Nat.lcm 1 ∧
    (∀ c ∈ [(⟨2, 0, false, 0⟩ : MetronomeChannel)], c.enabled = false) ∧
    barPatternLength [⟨2, 0, false, 0⟩] = 1 :=
  ⟨by decide, by norm_num,
   claim_C5.1 _ (by decide) (by norm_num),
   by decide,
   claim_C5.2.1 _ (by decide)⟩

theorem onDataReceived_device_fixed (st : WirelessSyncState) (len : Nat) (m : SyncMessage)
    (env : RecvEnv) :
    (onDataReceived st len m env).deviceID = st.deviceID ∧
    (onDataReceived st len m env).priority = st.priority := by
  obtain ⟨sq, pr, dev, ts, body⟩ := m
  unfold onDataReceived
  split
  · exact ⟨rfl, rfl⟩
  split
  · exact ⟨rfl, rfl⟩
  cases body with
  | clock c =>
    unfold processMessage
    dsimp only
    split
    · exact ⟨by simp, by simp⟩
    · exact ⟨rfl, rfl⟩
  | beat b =>
    unfold processMessage
    dsimp only
    split
    · split <;> exact ⟨rfl, rfl⟩
    · exact ⟨rfl, rfl⟩
  | bar b => exact ⟨rfl, rfl⟩
  | pattern p =>
    unfold processMessage
    dsimp only
    split
    · split <;> exact ⟨rfl, rfl⟩
    · exact ⟨rfl, rfl⟩
  | control c =>
    unfold processMessage
    dsimp only
    split
    · exact ⟨by simp, by simp⟩
    · exact ⟨rfl, rfl⟩

theorem onDataReceived_tracker_eq (st : WirelessSyncState) (len : Nat) (m : SyncMessage)
    (env : RecvEnv) (h : isHigherPriority st m.deviceID m.priority = false) :
    (onDataReceived st len m env).highestPrioritySeen = st.highestPrioritySeen ∧
    (onDataReceived st len m env).highestPriorityDevice = st.highestPriorityDevice := by
  obtain ⟨sq, pr, dev, ts, body⟩ := m
  unfold onDataReceived
  split
  · exact ⟨rfl, rfl⟩
  split
  · exact ⟨rfl, rfl⟩
  cases body with
  | clock c =>
    unfold processMessage
    dsimp only
    split
    · exact ⟨by simp, by simp⟩
    · exact ⟨rfl, rfl⟩
  | beat b =>
    unfold processMessage
    dsimp only
    split
    · split <;> exact ⟨rfl, rfl⟩
    · exact ⟨rfl, rfl⟩
  | bar b => exact ⟨rfl, rfl⟩
  | pattern p =>
    unfold processMessage
    dsimp only
    split
    · split <;> exact ⟨rfl, rfl⟩
    · exact ⟨rfl, rfl⟩
  | control c =>
    unfold processMessage
    dsimp only
    split
    · unfold processLeaderSelection
      have heq : isHigherPriority (updateLatency st env.nowMicrosLatency ts) dev pr
          = isHigherPriority st dev pr := by
        unfold isHigherPriority
        rw [updateLatency_highestPrioritySeen, updateLatency_highestPriorityDevice]
      split
      · exact ⟨by simp, by simp⟩
      split
      · rename_i hcond
        rw [heq] at hcond
        simp only [isHigherPriority] at hcond h
        rw [h] at hcond
        exact absurd hcond (by simp)
      · exact ⟨by simp, by simp⟩
    · exact ⟨rfl, rfl⟩

theorem negotiationFold (s : WirelessSyncState)
    (inbox : List (Nat × SyncMessage × RecvEnv)) :
    ∀ st : WirelessSyncState,
      st.deviceID = s.deviceID →
      st.highestPrioritySeen = s.priority →
      st.highestPriorityDevice = s.deviceID →
      (∀ x ∈ inbox, x.2.1.priority < s.priority ∨
         (x.2.1.priority = s.priority ∧ memLt x.2.1.deviceID s.deviceID = false)) →
      (inbox.foldl (fun acc x => onDataReceived acc x.1 x.2.1 x.2.2) st).deviceID
          = s.deviceID ∧
      (inbox.foldl (fun acc x => onDataReceived acc x.1 x.2.1 x.2.2) st).highestPrioritySeen
          = s.priority ∧
      (inbox.foldl (fun acc x => onDataReceived acc x.1 x.2.1 x.2.2) st).highestPriorityDevice
          = s.deviceID := by
  induction inbox with
  | nil =>
    intro st h1 h2 h3 _
    exact ⟨h1, h2, h3⟩
  | cons x xs ih =>
    intro st h1 h2 h3 hall
    have hx := hall x (by simp)
    have hfalse : isHigherPriority st x.2.1.deviceID x.2.1.priority = false := by
      unfold isHigherPriority
      rw [h2, h3]
      rcases hx with h | ⟨hp, hm⟩
      · rw [if_neg (by omega), if_neg (by omega)]
      · rw [if_neg (by omega), if_pos hp, hm]
    have hstep := onDataReceived_tracker_eq st x.1 x.2.1 x.2.2 hfalse
    have hdev := onDataReceived_device_fixed st x.1 x.2.1 x.2.2
    exact ih (onDataReceived st x.1 x.2.1 x.2.2)
      (hdev.1.trans h1) (hstep.1.trans h2) (hstep.2.trans h3)
      (fun y hy => hall y (by simp [hy]))

/-- Claim C1: during an active negotiation the highest-priority-seen tracker
is replaced by an inbound frame's (priority, deviceID) exactly when the
frame's priority is strictly higher, or equal with a numerically lower 6-byte
deviceID (the code's `memcmp` tiebreak coincides with numeric big-endian
order); consequently a candidate whose priority exceeds that of every frame
it may receive (e.g. priority 7 against priority 5) always ends its round as
Leader, whatever the interleaving, and under equal priorities the candidate
with the numerically lower deviceID always ends its round as Leader. -/
theorem claim_C1 :
    (∀ (s : WirelessSyncState) (m : SyncMessage),
       s.leaderNegotiationActive = true →
       s.highestPriorityDevice.length = 6 → m.deviceID.length = 6 →
       (∀ x ∈ s.highestPriorityDevice, x < 256) → (∀ x ∈ m.deviceID, x < 256) →
       processLeaderSelection s m =
         if s.highestPrioritySeen < m.priority ∨
            (m.priority = s.highestPrioritySeen ∧
             beVal m.deviceID < beVal s.highestPriorityDevice) then
           { s with highestPrioritySeen := m.priority, highestPriorityDevice := m.deviceID }
         else s) ∧
    (∀ (s : WirelessSyncState) (inbox : List (Nat × SyncMessage × RecvEnv)),
       (∀ x ∈ inbox, x.2.1.priority < s.priority) →
       (negotiationRound s inbox).isLeader = true) ∧
    (∀ (s : WirelessSyncState) (inbox : List (Nat × SyncMessage × RecvEnv)),
       s.deviceID.length = 6 → (∀ x ∈ s.deviceID, x < 256) →
       (∀ x ∈ inbox, x.2.1.priority < s.priority ∨
          (x.2.1.priority = s.priority ∧ x.2.1.deviceID.length = 6 ∧
           (∀ y ∈ x.2.1.deviceID, y < 256) ∧ beVal s.deviceID ≤ beVal x.2.1.deviceID)) →
       (negotiationRound s inbox).isLeader = true) := by
  refine ⟨?_, ?_, ?_⟩
  · intro s m hact hl1 hl2 hb1 hb2
    unfold processLeaderSelection
    rw [if_neg (by rw [hact]; simp)]
    by_cases hcond : s.highestPrioritySeen < m.priority ∨
        (m.priority = s.highestPrioritySeen ∧
         beVal m.deviceID < beVal s.highestPriorityDevice)
    · rw [if_pos hcond]
      have htrue : isHigherPriority s m.deviceID m.priority = true := by
        unfold isHigherPriority
        rcases hcond with h | ⟨hp, hv⟩
        · rw [if_pos h]
        · rw [if_neg (by omega), if_pos hp]
          exact (memLt_iff_beVal _ _ (by rw [hl2, hl1]) hb2 hb1).mpr hv
      rw [htrue]
      simp
    · rw [if_neg hcond]
      have hfalse : isHigherPriority s m.deviceID m.priority = false := by
        unfold isHigherPriority
        push_neg at hcond
        obtain ⟨hnp, himp⟩ := hcond
        rw [if_neg (by omega)]
        by_cases hp : m.priority = s.highestPrioritySeen
        · rw [if_pos hp]
          exact memLt_eq_false_of_le _ _ (by rw [hl2, hl1]) hb2 hb1
            (by have := himp hp; omega)
        · rw [if_neg hp]
      rw [hfalse]
      simp
  · intro s inbox hall
    unfold negotiationRound
    have hfold := negotiationFold s inbox (startNegotiation s) rfl rfl rfl
      (fun x hx => Or.inl (hall x hx))
    unfold finishNegotiation
    rw [hfold.2.2, hfold.1]
    simp
  · intro s inbox hslen hsb hall
    unfold negotiationRound
    have hfold := negotiationFold s inbox (startNegotiation s) rfl rfl rfl ?_
    · unfold finishNegotiation
      rw [hfold.2.2, hfold.1]
      simp
    · intro x hx
      rcases hall x hx with h | ⟨hp, hlen, hb, hge⟩
      · exact Or.inl h
      · exact Or.inr ⟨hp, memLt_eq_false_of_le _ _ (by rw [hlen, hslen]) hb hsb hge⟩

theorem claim_C1_witness :
    (negState.leaderNegotiationActive = true ∧
     processLeaderSelection negState (exNegMsg 7 [9, 9, 9, 9, 9, 9]) =
       (if negState.highestPrioritySeen < (exNegMsg 7 [9, 9, 9, 9, 9, 9]).priority ∨
            ((exNegMsg 7 [9, 9, 9, 9, 9, 9]).priority = negState.highestPrioritySeen ∧
             beVal (exNegMsg 7 [9, 9, 9, 9, 9, 9]).deviceID
                < beVal negState.highestPriorityDevice) then
          { negState with
            highestPrioritySeen := (exNegMsg 7 [9, 9, 9, 9, 9, 9]).priority
            highestPriorityDevice := (exNegMsg 7 [9, 9, 9, 9, 9, 9]).deviceID }
        else negState)) ∧
    (negotiationRound { baseState with priority := 7 }
        [(32, exNegMsg 5 [9, 9, 9, 9, 9, 9], exEnv)]).isLeader = true ∧
    (negotiationRound baseState [(32, exNegMsg 5 [9, 9, 9, 9, 9, 9], exEnv)]).isLeader = true := by
  refine ⟨⟨rfl, ?_⟩, ?_, ?_⟩
  · exact claim_C1.1 negState _ rfl (by decide) (by decide) (by decide) (by decide)
  · exact claim_C1.2.1 { baseState with priority := 7 } _ (by decide)
  · exact claim_C1.2.2 baseState _ (by decide) (by decide) (by decide)

theorem toInt32_sub (a b : Nat) (h1 : (a : Int) - b < 2 ^ 31)
    (h2 : -(2 ^ 31 : Int) ≤ (a : Int) - b) :
    toInt32 (u64sub a b) = (a : Int) - b := by
  unfold toInt32 u64sub u64
  split <;> omega

theorem clampPos_step (n : Nat) :
    (if min (1 + (n : ℚ) / 10000) (11 / 10) + 1 / 10000 < 9 / 10 then (9 : ℚ) / 10
     else if 11 / 10 < min (1 + (n : ℚ) / 10000) (11 / 10) + 1 / 10000 then (11 : ℚ) / 10
     else min (1 + (n : ℚ) / 10000) (11 / 10) + 1 / 10000)
      = min (1 + ((n : ℚ) + 1) / 10000) (11 / 10) := by
  by_cases h : n ≤ 999
  · have hq : (n : ℚ) ≤ 999 := by exact_mod_cast h
    have hmin : min (1 + (n : ℚ) / 10000) (11 / 10) = 1 + (n : ℚ) / 10000 :=
      min_eq_left (by linarith)
    rw [hmin, if_neg (by linarith), if_neg (by linarith), min_eq_left (by linarith)]
    ring
  · have hq : (1000 : ℚ) ≤ (n : ℚ) := by exact_mod_cast (by omega : 1000 ≤ n)
    have hmin : min (1 + (n : ℚ) / 10000) (11 / 10) = 11 / 10 :=
      min_eq_right (by linarith)
    rw [hmin, if_neg (by linarith), if_pos (by linarith), min_eq_right (by linarith)]

theorem clampNeg_step (n : Nat) :
    (if max (1 - (n : ℚ) / 10000) (9 / 10) + -(1 / 10000) < 9 / 10 then (9 : ℚ) / 10
     else if 11 / 10 < max (1 - (n : ℚ) / 10000) (9 / 10) + -(1 / 10000) then (11 : ℚ) / 10
     else max (1 - (n : ℚ) / 10000) (9 / 10) + -(1 / 10000))
      = max (1 - ((n : ℚ) + 1) / 10000) (9 / 10) := by
  by_cases h : n ≤ 999
  · have hq : (n : ℚ) ≤ 999 := by exact_mod_cast h
    have hmax : max (1 - (n : ℚ) / 10000) (9 / 10) = 1 - (n : ℚ) / 10000 :=
      max_eq_left (by linarith)
    rw [hmax, if_neg (by linarith), if_neg (by linarith), max_eq_left (by linarith)]
    ring
  · have hq : (1000 : ℚ) ≤ (n : ℚ) := by exact_mod_cast (by omega : 1000 ≤ n)
    have hmax : max (1 - (n : ℚ) / 10000) (9 / 10) = 9 / 10 :=
      max_eq_right (by linarith)
    rw [hmax, if_pos (by linarith), max_eq_right (by linarith)]

/-- Claim C3: on every CLOCK frame after the first (lastReceivedTick nonzero),
with drift = local arrival time − (frame timestamp + expected tick interval),
a drift of magnitude above 100μs moves the correction factor by exactly
+0.0001 (positive drift) or −0.0001 (negative drift) and clamps it to
[0.9, 1.1], and any smaller drift leaves it unchanged; consequently a
constant +150μs bias drives the factor from 1 up in exact 0.0001 steps until
it sticks at 1.1, and a constant −150μs bias drives it down toward 0.9.
The C float arithmetic is modelled exactly over ℚ, and the no-overflow side
conditions keep the uint64/int32 wire arithmetic equal to the mathematical
drift. -/
theorem claim_C3 :
    (∀ (s : WirelessSyncState) (tick ts ti now : Nat),
       s.lastReceivedTick ≠ 0 → ts + ti < 2 ^ 64 →
       (now : ℤ) - ((ts + ti : ℕ) : ℤ) < 2 ^ 31 →
       (-(2 ^ 31 : ℤ)) ≤ (now : ℤ) - ((ts + ti : ℕ) : ℤ) →
       (predictNextTick s tick ts ti now).driftCorrection =
         (if 100 < ((now : ℤ) - ((ts + ti : ℕ) : ℤ)).natAbs then
            (if s.driftCorrection +
                  (if 0 < (now : ℤ) - ((ts + ti : ℕ) : ℤ) then (1 : ℚ) / 10000
                   else -((1 : ℚ) / 10000)) < 9 / 10 then (9 : ℚ) / 10
             else if 11 / 10 < s.driftCorrection +
                  (if 0 < (now : ℤ) - ((ts + ti : ℕ) : ℤ) then (1 : ℚ) / 10000
                   else -((1 : ℚ) / 10000)) then (11 : ℚ) / 10
             else s.driftCorrection +
                  (if 0 < (now : ℤ) - ((ts + ti : ℕ) : ℤ) then (1 : ℚ) / 10000
                   else -((1 : ℚ) / 10000)))
          else s.driftCorrection)) ∧
    (∀ (s : WirelessSyncState) (ti : Nat), s.lastReceivedTick ≠ 0 →
       s.driftCorrection = 1 → ∀ n : Nat, n + ti + 150 < 2 ^ 64 →
       (biasPosStream s ti n).driftCorrection = min (1 + (n : ℚ) / 10000) (11 / 10)) ∧
    (∀ (s : WirelessSyncState) (ti : Nat), s.lastReceivedTick ≠ 0 →
       s.driftCorrection = 1 → ∀ n : Nat, n + ti + 150 < 2 ^ 64 →
       (biasNegStream s ti n).driftCorrection = max (1 - (n : ℚ) / 10000) (9 / 10)) := by
  refine ⟨?_, ?_, ?_⟩
  · intro s tick ts ti now h0 hbound h1 h2
    unfold predictNextTick
    rw [if_neg h0]
    dsimp only
    have hu : u64 (ts + ti) = ts + ti := Nat.mod_eq_of_lt hbound
    rw [hu, toInt32_sub now (ts + ti) h1 h2]
  · intro s ti h0 hdc
    intro n
    induction n with
    | zero =>
      intro _
      have : (biasPosStream s ti 0).driftCorrection = 1 := hdc
      rw [this, min_eq_left (by norm_num)]
      norm_num
    | succ k ih =>
      intro hb
      have ihv := ih (by omega)
      have hlrt : (biasPosStream s ti k).lastReceivedTick ≠ 0 := by
        cases k with
        | zero => exact h0
        | succ j =>
          show (predictNextTick _ (j + 2) _ _ _).lastReceivedTick ≠ 0
          rw [predictNextTick_lastReceivedTick]
          omega
      show (predictNextTick (biasPosStream s ti k) (k + 2) k ti
        (k + ti + 150)).driftCorrection = _
      unfold predictNextTick
      rw [if_neg hlrt]
      dsimp only
      have hu : u64 (k + ti) = k + ti := Nat.mod_eq_of_lt (by omega)
      rw [hu, toInt32_sub (k + ti + 150) (k + ti) (by push_cast; omega) (by push_cast; omega)]
      have hd : ((k + ti + 150 : ℕ) : ℤ) - ((k + ti : ℕ) : ℤ) = 150 := by push_cast; ring
      rw [hd, if_pos (by norm_num : (100 : ℕ) < (150 : ℤ).natAbs),
        if_pos (by norm_num : (0 : ℤ) < 150), ihv]
      have := clampPos_step k
      push_cast
      push_cast at this
      exact this
  · intro s ti h0 hdc
    intro n
    induction n with
    | zero =>
      intro _
      have : (biasNegStream s ti 0).driftCorrection = 1 := hdc
      rw [this, max_eq_left (by norm_num)]
      norm_num
    | succ k ih =>
      intro hb
      have ihv := ih (by omega)
      have hlrt : (biasNegStream s ti k).lastReceivedTick ≠ 0 := by
        cases k with
        | zero => exact h0
        | succ j =>
          show (predictNextTick _ (j + 2) _ _ _).lastReceivedTick ≠ 0
          rw [predictNextTick_lastReceivedTick]
          omega
      show (predictNextTick (biasNegStream s ti k) (k + 2) (k + 150) ti
        (k + ti)).driftCorrection = _
      unfold predictNextTick
      rw [if_neg hlrt]
      dsimp only
      have hu : u64 (k + 150 + ti) = k + 150 + ti := Nat.mod_eq_of_lt (by omega)
      rw [hu, toInt32_sub (k + ti) (k + 150 + ti) (by push_cast; omega) (by push_cast; omega)]
      have hd : ((k + ti : ℕ) : ℤ) - ((k + 150 + ti : ℕ) : ℤ) = -150 := by push_cast; ring
      rw [hd, if_pos (by norm_num : (100 : ℕ) < (-150 : ℤ).natAbs),
        if_neg (by norm_num : ¬ (0 : ℤ) < -150), ihv]
      have := clampNeg_step k
      push_cast
      push_cast at this
      exact this

theorem claim_C3_witness :
    (tickedState.lastReceivedTick ≠ 0 ∧ (1000 : ℕ) + 1000 < 2 ^ 64 ∧
     (predictNextTick tickedState 2 1000 1000 2150).driftCorrection =
       (if 100 < ((2150 : ℤ) - ((1000 + 1000 : ℕ) : ℤ)).natAbs then
          (if tickedState.driftCorrection +
                (if 0 < (2150 : ℤ) - ((1000 + 1000 : ℕ) : ℤ) then (1 : ℚ) / 10000
                 else -((1 : ℚ) / 10000)) < 9 / 10 then (9 : ℚ) / 10
           else if 11 / 10 < tickedState.driftCorrection +
                (if 0 < (2150 : ℤ) - ((1000 + 1000 : ℕ) : ℤ) then (1 : ℚ) / 10000
                 else -((1 : ℚ) / 10000)) then (11 : ℚ) / 10
           else tickedState.driftCorrection +
                (if 0 < (2150 : ℤ) - ((1000 + 1000 : ℕ) : ℤ) then (1 : ℚ) / 10000
                 else -((1 : ℚ) / 10000)))
        else tickedState.driftCorrection)) ∧
    (biasPosStream tickedState 0 2).driftCorrection = min (1 + (2 : ℚ) / 10000) (11 / 10) ∧
    (biasNegStream tickedState 0 2).driftCorrection = max (1 - (2 : ℚ) / 10000) (9 / 10) := by
  refine ⟨⟨by decide, by decide, ?_⟩, ?_, ?_⟩
  · exact claim_C3.1 tickedState 2 1000 1000 2150 (by decide) (by decide) (by decide) (by decide)
  · exact claim_C3.2.1 tickedState 0 (by decide) rfl 2 (by decide)
  · exact claim_C3.2.2 tickedState 0 (by decide) rfl 2 (by decide)

theorem bitCount_succ (p m : Nat) :
    bitCount p (m + 1) = bitCount p m + (if p.testBit m then 1 else 0) := by
  unfold bitCount
  rw [List.range_succ, List.filter_append, List.length_append]
  congr 1
  simp only [List.filter_cons, List.filter_nil]
  split <;> simp

theorem bitCount_congr (p q m : Nat) (h : ∀ j < m, p.testBit j = q.testBit j) :
    bitCount p m = bitCount q m := by
  unfold bitCount
  congr 1
  apply List.filter_congr
  intro j hj
  rw [h j (List.mem_range.mp hj)]

theorem bitCount_lor_two_pow_of_le (p i m : Nat) (h : m ≤ i) :
    bitCount (p ||| 2 ^ i) m = bitCount p m :=
  bitCount_congr _ _ _ (fun j hj => by
    rw [Nat.testBit_lor, Nat.testBit_two_pow_of_ne (by omega), Bool.or_false])

theorem bitCount_lor_two_pow (p i m : Nat) (him : i < m) (hp : p.testBit i = false) :
    bitCount (p ||| 2 ^ i) m = bitCount p m + 1 := by
  induction m with
  | zero => omega
  | succ m ih =>
    by_cases hc : i < m
    · rw [bitCount_succ, bitCount_succ, ih hc]
      have hbm : (p ||| 2 ^ i).testBit m = p.testBit m := by
        rw [Nat.testBit_lor, Nat.testBit_two_pow_of_ne (by omega), Bool.or_false]
      rw [hbm]
      ring
    · have hi : i = m := by omega
      subst hi
      rw [bitCount_succ, bitCount_succ, bitCount_lor_two_pow_of_le p i i le_rfl, hp]
      have hbt : (p ||| 2 ^ i).testBit i = true := by
        rw [Nat.testBit_lor, Nat.testBit_two_pow_self, Bool.or_true]
      rw [hbt]
      simp

theorem bitCount_of_lt (p i : Nat) (h : p < 2 ^ i) : bitCount p (i + 1) = bitCount p i := by
  rw [bitCount_succ, Nat.testBit_eq_false_of_lt h]
  simp

theorem euclidAux_fst_lt (n k i : Nat) : (euclidAux n k i).1 < 2 ^ i := by
  induction i with
  | zero => simp [euclidAux]
  | succ i ih =>
    have hpow : (2 : Nat) ^ i < 2 ^ (i + 1) := Nat.pow_lt_pow_succ (by norm_num)
    unfold euclidAux
    dsimp only
    split
    · exact Nat.or_lt_two_pow (lt_trans ih hpow) hpow
    · exact lt_trans ih hpow

theorem euclid_inv_le (n k : Nat) (hn : 0 < n) (hk : k ≤ n) (i : Nat) :
    (euclidAux n k i).2 = i * k % n ∧ bitCount (euclidAux n k i).1 i = i * k / n := by
  induction i with
  | zero => constructor <;> simp [euclidAux, bitCount]
  | succ i ih =>
    obtain ⟨hsnd, hcnt⟩ := ih
    have hflt := euclidAux_fst_lt n k i
    have hrem : i * k % n < n := Nat.mod_lt _ hn
    have hmul : (i + 1) * k = i * k + k := by ring
    have hdm : n * (i * k / n) + i * k % n = i * k := Nat.div_add_mod (i * k) n
    unfold euclidAux
    dsimp only
    rw [hsnd]
    by_cases hge : n ≤ i * k % n + k
    · rw [if_pos hge]
      dsimp only
      constructor
      · have h2 : (i + 1) * k = n * (i * k / n + 1) + (i * k % n + k - n) := by
          have h3 : n * (i * k / n + 1) = n * (i * k / n) + n := by ring
          omega
        rw [h2, Nat.mul_add_mod]
        exact (Nat.mod_eq_of_lt (by omega)).symm
      · rw [bitCount_lor_two_pow _ _ _ (by omega) (Nat.testBit_eq_false_of_lt hflt),
          bitCount_of_lt _ _ hflt, hcnt]
        have h2 : (i + 1) * k = n * (i * k / n + 1) + (i * k % n + k - n) := by
          have h3 : n * (i * k / n + 1) = n * (i * k / n) + n := by ring
          omega
        rw [h2, Nat.mul_add_div hn,
          Nat.div_eq_of_lt (show i * k % n + k - n < n by omega)]
    · rw [if_neg hge]
      dsimp only
      have h2 : (i + 1) * k = n * (i * k / n) + (i * k % n + k) := by omega
      constructor
      · rw [h2, Nat.mul_add_mod]
        exact (Nat.mod_eq_of_lt (by omega)).symm
      · rw [bitCount_succ, Nat.testBit_eq_false_of_lt hflt, hcnt]
        rw [h2, Nat.mul_add_div hn,
          Nat.div_eq_of_lt (show i * k % n + k < n by omega)]
        simp

theorem euclid_inv_gt (n k : Nat) (hk : n < k) (i : Nat) :
    (euclidAux n k i).2 = i * (k - n) ∧ bitCount (euclidAux n k i).1 i = i := by
  induction i with
  | zero => constructor <;> simp [euclidAux, bitCount]
  | succ i ih =>
    obtain ⟨hsnd, hcnt⟩ := ih
    have hflt := euclidAux_fst_lt n k i
    unfold euclidAux
    dsimp only
    rw [hsnd]
    rw [if_pos (by omega)]
    dsimp only
    constructor
    · have : (i + 1) * (k - n) = i * (k - n) + (k - n) := by ring
      omega
    · rw [bitCount_lor_two_pow _ _ _ (by omega) (Nat.testBit_eq_false_of_lt hflt),
        bitCount_of_lt _ _ hflt, hcnt]

theorem euclid_testBit_stable (n k j : Nat) :
    ∀ i, j < i → (euclidAux n k i).1.testBit j = (euclidAux n k (j + 1)).1.testBit j := by
  intro i
  induction i with
  | zero => omega
  | succ i ih =>
    intro hj
    by_cases hji : j < i
    · have hstep := ih hji
      conv_lhs => rw [euclidAux]
      split
      · rw [Nat.testBit_lor, Nat.testBit_two_pow_of_ne (by omega), Bool.or_false, hstep]
      · exact hstep
    · have : j = i := by omega
      subst this
      rfl

theorem euclidAux_one (n k : Nat) :
    euclidAux n k 1 = if n ≤ k then (1, k - n) else (0, k) := by
  by_cases h : n ≤ k
  · rw [if_pos h]
    show (if n ≤ 0 + k then ((0 : Nat) ||| 2 ^ 0, 0 + k - n) else ((0 : Nat), 0 + k))
      = (1, k - n)
    rw [if_pos (by omega)]
    norm_num
  · rw [if_neg h]
    show (if n ≤ 0 + k then ((0 : Nat) ||| 2 ^ 0, 0 + k - n) else ((0 : Nat), 0 + k))
      = (0, k)
    rw [if_neg (by omega)]
    norm_num

theorem lor_one_eq_of_testBit0 (p : Nat) (hp : p.testBit 0 = true) : p ||| 1 = p := by
  apply Nat.eq_of_testBit_eq
  intro j
  rw [Nat.testBit_lor]
  cases j with
  | zero => rw [hp]; rfl
  | succ j =>
    have h1 : Nat.testBit 1 (j + 1) = false := by
      rw [show (1 : Nat) = 2 ^ 0 by norm_num, Nat.testBit_two_pow_of_ne (by omega)]
    rw [h1, Bool.or_false]

/-- Claim C6 is false even of the spec's own algorithm: the described bucket
loop with accumulator starting at 0 followed by forcing bit 0 yields, for
n = 8 and k = 3, the bitmask 165 (bits {0, 2, 5, 7}), not 73 (bits {0, 3, 6}),
and it sets 4 = min(k+1, n) bits, not min(k, n) = 3. -/
theorem claim_C6_counterexample :
    generateEuclidean 8 3 ≠ 73 ∧ bitCount (generateEuclidean 8 3) 8 ≠ min 3 8 := by
  constructor <;> decide

/-- Claim C6 (amended): modelled from the spec (the PatternModel source is not
in the repository): the bucket loop activates exactly min(k, n) slots, with
slot 0 activated only when k ≥ n, so after forcing bit 0 the generated
pattern has exactly min(k+1, n) active bits among slots 0..n−1, always has
bit 0 active, and for n = 8, k = 3 equals 165 (bits {0, 2, 5, 7}). -/
theorem claim_C6 :
    (∀ n k : Nat, 1 ≤ n →
       bitCount (generateEuclidean n k) n = min (k + 1) n ∧
       (generateEuclidean n k).testBit 0 = true) ∧
    generateEuclidean 8 3 = 165 := by
  constructor
  · intro n k hn
    have hbit0 : (generateEuclidean n k).testBit 0 = true := by
      unfold generateEuclidean
      rw [Nat.testBit_lor]
      rw [show Nat.testBit 1 0 = true from rfl, Bool.or_true]
    refine ⟨?_, hbit0⟩
    have hstable : (euclidAux n k n).1.testBit 0 = (euclidAux n k 1).1.testBit 0 :=
      euclid_testBit_stable n k 0 n hn
    by_cases hk : k ≤ n
    · obtain ⟨hsnd, hcnt⟩ := euclid_inv_le n k (by omega) hk n
      rcases Nat.lt_or_ge k n with hlt | hge
      · have hb1 : (euclidAux n k 1).1 = 0 := by
          rw [euclidAux_one, if_neg (by omega)]
        have hbp : (euclidAux n k n).1.testBit 0 = false := by
          rw [hstable, hb1]
          simp
        show bitCount ((euclidAux n k n).1 ||| 2 ^ 0) n = min (k + 1) n
        rw [bitCount_lor_two_pow _ _ _ (by omega) hbp, hcnt,
          Nat.mul_div_cancel_left k (by omega), min_eq_left (by omega)]
      · have hkn : k = n := by omega
        have hb1 : (euclidAux n k 1).1 = 1 := by
          rw [euclidAux_one, if_pos (by omega)]
        have hbp : (euclidAux n k n).1.testBit 0 = true := by
          rw [hstable, hb1]
          rfl
        unfold generateEuclidean
        rw [lor_one_eq_of_testBit0 _ hbp, hcnt, Nat.mul_div_cancel_left k (by omega)]
        subst hkn
        rw [min_eq_right (by omega)]
    · obtain ⟨hsnd, hcnt⟩ := euclid_inv_gt n k (by omega) n
      have hb1 : (euclidAux n k 1).1 = 1 := by
        rw [euclidAux_one, if_pos (by omega)]
      have hbp : (euclidAux n k n).1.testBit 0 = true := by
        rw [hstable, hb1]
        rfl
      unfold generateEuclidean
      rw [lor_one_eq_of_testBit0 _ hbp, hcnt, min_eq_right (by omega)]
  · decide

theorem claim_C6_witness :
    (1 : Nat) ≤ 8 ∧
    bitCount (generateEuclidean 8 3) 8 = min (3 + 1) 8 ∧
    (generateEuclidean 8 3).testBit 0 = true :=
  ⟨by decide, (claim_C6.1 8 3 (by decide)).1, (claim_C6.1 8 3 (by decide)).2⟩

end MetronomeSync
